import Mathlib

/-!
Verification of the speech playback subsystem of the english-learning app.

The embedding follows `src/hooks/useSpeechPlayer.ts`:
* `pcmToAudioBuffer` models the PCM decoder (16-bit little-endian signed
  samples, mono, 24 kHz), including the JavaScript quirks on odd-length
  input: `pcm.length / 2` is a fractional loop bound, `createBuffer`
  truncates the frame count, an out-of-range channel write is dropped, and
  an out-of-range byte read behaves as 0 inside `(hi << 8) | lo`.
* `PlayerState` with `stopAudio`, `playFromStart`, `resumeAudio`,
  `onEnded`, `setSpeed`, and the load lifecycle models the hook's state.
Sample values are exact here: every value written to the channel is an
integer multiple of 1/32768, which float32 represents exactly, so modelling
the channel with rationals loses nothing.
-/

set_option autoImplicit false

/-- An in-memory audio buffer as produced by `AudioContext.createBuffer`:
one channel of float samples (modelled exactly as rationals) at a fixed
sample rate. -/
@[ext] structure AudioBuffer where
  numChannels : Nat
  length : Nat
  sampleRate : Nat
  channel : List ℚ
  deriving DecidableEq

/-- Web Audio `AudioBuffer.duration` is `length / sampleRate` seconds. -/
def AudioBuffer.duration (b : AudioBuffer) : ℚ :=
  (b.length : ℚ) / (b.sampleRate : ℚ)

/-- Reading `pcm[k]` in JavaScript past the end of the array yields
`undefined`, which coerces to 0 inside the bitwise expression
`(hi << 8) | lo`; in-range reads return the byte. -/
def byteAt (pcm : List Nat) (k : Nat) : Nat := pcm.getD k 0

/-- Body of the decode loop of `pcmToAudioBuffer` in `useSpeechPlayer.ts`
(`TextDisplay.tsx` carries an identical copy): combine the byte pair at
`2i` (low) and `2i+1` (high) as `(hi << 8) | lo`, reinterpret as signed
16-bit, and normalise by 32768. -/
def decodeSample (pcm : List Nat) (i : Nat) : ℚ :=
  let lo := byteAt pcm (i * 2)
  let hi := byteAt pcm (i * 2 + 1)
  let u := (hi <<< 8) ||| lo
  let val : Int := if 0x8000 ≤ u then (u : Int) - 0x10000 else (u : Int)
  (val : ℚ) / 32768

/-- `pcmToAudioBuffer` from `useSpeechPlayer.ts`. In the source,
`samples = pcm.length / 2` is an exact (possibly fractional) number:
`ctx.createBuffer(1, samples, 24000)` truncates it to `⌊length/2⌋` frames,
while the loop `for (i = 0; i < samples; i++)` runs `⌈length/2⌉` times,
i.e. `(length+1)/2` in truncating arithmetic; for odd input the final
iteration writes past the end of the channel data, which a typed array
drops silently (`List.set` out of range is the identity). -/
def pcmToAudioBuffer (pcm : List Nat) : AudioBuffer :=
  let sampleRate := 24000
  let frames := pcm.length / 2
  let channel := (List.range ((pcm.length + 1) / 2)).foldl
      (fun ch i => ch.set i (decodeSample pcm i)) (List.replicate frames 0)
  { numChannels := 1, length := frames, sampleRate := sampleRate, channel := channel }

lemma foldl_set_length (f : Nat → ℚ) (init : List ℚ) (n : Nat) :
    ((List.range n).foldl (fun ch j => ch.set j (f j)) init).length = init.length := by
  induction n with
  | zero => rfl
  | succ n ih =>
      rw [List.range_succ, List.foldl_append, List.foldl_cons, List.foldl_nil,
        List.length_set, ih]

lemma foldl_set_getD (f : Nat → ℚ) (init : List ℚ) (n i : Nat) (h1 : i < n)
    (h2 : i < init.length) :
    ((List.range n).foldl (fun ch j => ch.set j (f j)) init).getD i 0 = f i := by
  induction n with
  | zero => exact absurd h1 (Nat.not_lt_zero i)
  | succ n ih =>
      rw [List.range_succ, List.foldl_append, List.foldl_cons, List.foldl_nil]
      by_cases hin : i = n
      · subst hin
        have hlen : i < ((List.range i).foldl (fun ch j => ch.set j (f j)) init).length := by
          rw [foldl_set_length]; exact h2
        rw [List.getD_eq_getElem?_getD, List.getElem?_set_self hlen, Option.getD_some]
      · rw [List.getD_eq_getElem?_getD, List.getElem?_set_ne (by omega),
          ← List.getD_eq_getElem?_getD]
        exact ih (by omega)

/-- For a low byte below 256, the combination `(hi <<< 8) ||| lo` used by
the decoder is plain positional arithmetic `hi * 256 + lo`. -/
lemma shiftLeft_or_eq_mul_add (hi lo : Nat) (h : lo < 256) :
    (hi <<< 8) ||| lo = hi * 256 + lo := by
  apply Nat.eq_of_testBit_eq
  intro j
  rw [Nat.testBit_or, Nat.testBit_shiftLeft]
  by_cases hj : j < 8
  · have hge : ¬ (8 ≤ j) := by omega
    simp only [ge_iff_le, hge, decide_False, Bool.false_and, Bool.false_or]
    rw [Nat.testBit_to_div_mod, Nat.testBit_to_div_mod, decide_eq_decide]
    interval_cases j <;> norm_num <;> omega
  · have hge : 8 ≤ j := by omega
    have hlo : lo.testBit j = false := by
      refine Nat.testBit_lt_two_pow (lt_of_lt_of_le h ?_)
      calc (256 : Nat) = 2 ^ 8 := by norm_num
        _ ≤ 2 ^ j := Nat.pow_le_pow_right (by norm_num) hge
    simp only [ge_iff_le, hge, decide_True, Bool.true_and, hlo, Bool.or_false]
    rw [Nat.testBit_to_div_mod, Nat.testBit_to_div_mod]
    have hdiv : (hi * 256 + lo) / 2 ^ j = hi / 2 ^ (j - 8) := by
      have hpow : (2 : Nat) ^ j = 2 ^ 8 * 2 ^ (j - 8) := by
        rw [← pow_add]; congr 1; omega
      have hsplit : hi * 256 + lo = 2 ^ 8 * hi + lo := by
        rw [show (256 : Nat) = 2 ^ 8 by norm_num, Nat.mul_comm]
      have hlo8 : lo < 2 ^ 8 := by
        have h256 : (2 : Nat) ^ 8 = 256 := by norm_num
        omega
      rw [hpow, ← Nat.div_div_eq_div_mul, hsplit,
        Nat.mul_add_div (by norm_num), Nat.div_eq_of_lt hlo8, Nat.add_zero]
    rw [hdiv]

/-- The channel produced by the decoder is exactly the per-index decode of
the byte pairs, one sample per full pair: the fold (with its possible
out-of-range final write on odd input) equals a clean map. -/
lemma pcmToAudioBuffer_channel (pcm : List Nat) :
    (pcmToAudioBuffer pcm).channel =
      (List.range (pcm.length / 2)).map (decodeSample pcm) := by
  apply List.ext_getElem
  · show ((List.range ((pcm.length + 1) / 2)).foldl
        (fun ch i => ch.set i (decodeSample pcm i))
        (List.replicate (pcm.length / 2) 0)).length = _
    rw [foldl_set_length, List.length_replicate, List.length_map, List.length_range]
  · intro i h1 h2
    have hi2 : i < pcm.length / 2 := by
      simpa using h2
    have hgetD : (pcmToAudioBuffer pcm).channel.getD i 0 = decodeSample pcm i := by
      show ((List.range ((pcm.length + 1) / 2)).foldl
        (fun ch j => ch.set j (decodeSample pcm j))
        (List.replicate (pcm.length / 2) 0)).getD i 0 = _
      exact foldl_set_getD _ _ _ _ (by omega) (by simpa using hi2)
    rw [List.getD_eq_getElem?_getD, List.getElem?_eq_getElem h1, Option.getD_some] at hgetD
    rw [hgetD, List.getElem_map, List.getElem_range]

lemma pcmToAudioBuffer_length (pcm : List Nat) :
    (pcmToAudioBuffer pcm).length = pcm.length / 2 := rfl

lemma pcmToAudioBuffer_sampleRate (pcm : List Nat) :
    (pcmToAudioBuffer pcm).sampleRate = 24000 := rfl

lemma duration_nonneg (b : AudioBuffer) : 0 ≤ b.duration := by
  unfold AudioBuffer.duration
  positivity

/-- Claim C1: for every even-length byte sequence, decoded sample `i`
(for `i < byteLength/2`) equals the signed reinterpretation of
`(high <<< 8) ||| low = high * 256 + low` (bytes `2i` low, `2i+1` high),
minus 65536 when at least 32768, divided by 32768. -/
theorem pcm_decode_sample_correct (pcm : List Nat)
    (hbytes : ∀ b ∈ pcm, b < 256) (heven : pcm.length % 2 = 0)
    (i : Nat) (hilt : i < pcm.length / 2) :
    (pcmToAudioBuffer pcm).channel.getD i 0 =
      ((if 32768 ≤ pcm.getD (2 * i + 1) 0 * 256 + pcm.getD (2 * i) 0 then
          ((pcm.getD (2 * i + 1) 0 * 256 + pcm.getD (2 * i) 0 : Nat) : ℤ) - 65536
        else ((pcm.getD (2 * i + 1) 0 * 256 + pcm.getD (2 * i) 0 : Nat) : ℤ) : ℤ) : ℚ)
        / 32768 := by
  have hlen := pcmToAudioBuffer_channel pcm
  have hgetD : (pcmToAudioBuffer pcm).channel.getD i 0 = decodeSample pcm i := by
    rw [hlen, List.getD_eq_getElem?_getD,
      List.getElem?_eq_getElem (by simpa using hilt), Option.getD_some,
      List.getElem_map, List.getElem_range]
  have h2i : 2 * i + 1 < pcm.length := by omega
  have hlo_lt : pcm.getD (2 * i) 0 < 256 := by
    have hmem : pcm.getD (2 * i) 0 ∈ pcm := by
      rw [List.getD_eq_getElem?_getD, List.getElem?_eq_getElem (by omega), Option.getD_some]
      exact List.getElem_mem _
    exact hbytes _ hmem
  rw [hgetD]
  simp only [decodeSample, byteAt]
  rw [Nat.mul_comm i 2, shiftLeft_or_eq_mul_add _ _ hlo_lt]

/-- Claim C1 witness: decoding the four bytes `[52, 18, 255, 255]` gives
sample 1 = -1/32768 (pair `0xFFFF` reinterpreted as -1). -/
theorem pcm_decode_sample_correct_witness :
    (pcmToAudioBuffer [52, 18, 255, 255]).channel.getD 1 0 = -(1 / 32768 : ℚ) := by
  have h := pcm_decode_sample_correct [52, 18, 255, 255] (by decide) (by decide) 1 (by decide)
  norm_num at h
  simpa using h

/-- Claim C8: the decoder is total on odd-length input: the trailing
unpaired byte is ignored (decoding equals decoding the even truncation),
and the buffer always has `⌊byteLength/2⌋` frames, hence duration
`⌊byteLength/2⌋ / 24000` seconds. -/
theorem pcm_decode_odd_length_safe (pcm : List Nat) :
    (pcmToAudioBuffer pcm).duration = ((pcm.length / 2 : Nat) : ℚ) / 24000 ∧
    (pcmToAudioBuffer pcm).length = pcm.length / 2 ∧
    (pcmToAudioBuffer pcm).channel.length = pcm.length / 2 ∧
    pcmToAudioBuffer pcm = pcmToAudioBuffer (pcm.take (2 * (pcm.length / 2))) := by
  have htakelen : (pcm.take (2 * (pcm.length / 2))).length = 2 * (pcm.length / 2) := by
    rw [List.length_take]
    omega
  have htakediv : (pcm.take (2 * (pcm.length / 2))).length / 2 = pcm.length / 2 := by
    rw [htakelen]; omega
  refine ⟨rfl, rfl, ?_, ?_⟩
  · rw [pcmToAudioBuffer_channel, List.length_map, List.length_range]
  · refine AudioBuffer.ext rfl ?_ rfl ?_
    · rw [pcmToAudioBuffer_length, pcmToAudioBuffer_length, htakediv]
    · rw [pcmToAudioBuffer_channel, pcmToAudioBuffer_channel, htakediv]
      refine List.map_congr_left ?_
      intro i hi
      rw [List.mem_range] at hi
      simp only [decodeSample, byteAt]
      have hread : ∀ k, k < 2 * (pcm.length / 2) →
          pcm.getD k 0 = (pcm.take (2 * (pcm.length / 2))).getD k 0 := by
        intro k hk
        rw [List.getD_eq_getElem?_getD, List.getD_eq_getElem?_getD,
          List.getElem?_eq_getElem (by omega : k < (pcm.take (2 * (pcm.length / 2))).length),
          List.getElem?_eq_getElem (by omega : k < pcm.length)]
        simp [List.getElem_take]
      rw [hread (i * 2) (by omega), hread (i * 2 + 1) (by omega)]

/-- One `AudioBufferSourceNode` as configured by `playFromStart` /
`resumeAudio`: the playback-rate multiplier, the loop flag, and the buffer
offset passed to `source.start(0, offset)`. -/
structure SourceNode where
  rate : ℚ
  loop : Bool
  offset : ℚ
  deriving DecidableEq

/-- The state held by `useSpeechPlayer`: the `useState` flags, the refs
(`audioContextRef` presence as `hasCtx`, `sourceNodeRef`, `startTimeRef`,
`startOffsetRef`), and the `text` prop currently tracked by the load
effect. -/
structure PlayerState where
  isPlayingAudio : Bool
  isAudioLoading : Bool
  isAudioPrepared : Bool
  audioBuffer : Option AudioBuffer
  playbackRate : ℚ
  isRepeat : Bool
  isAudioError : Bool
  hasCtx : Bool
  sourceNode : Option SourceNode
  startTime : ℚ
  startOffset : ℚ
  currentText : String
  deriving DecidableEq

/-- The hook's initial state: `useState(false)` for the flags,
`useState(1.0)` for the rate, `useState(true)` for repeat, null refs. -/
def initState : PlayerState :=
  { isPlayingAudio := false, isAudioLoading := false, isAudioPrepared := false,
    audioBuffer := none, playbackRate := 1, isRepeat := true, isAudioError := false,
    hasCtx := false, sourceNode := none, startTime := 0, startOffset := 0,
    currentText := "" }

/-- The offset recorded by `stopAudio`'s inner guard
`if (audioContextRef.current && audioBuffer && isPlayingAudio)`: when the
context, buffer and playing flag are all present,
`min (startOffset + (now - startTime), duration)`, otherwise the stored
offset unchanged. -/
def stopPosition (s : PlayerState) (now : ℚ) : ℚ :=
  match s.audioBuffer with
  | some buf =>
    if s.hasCtx && s.isPlayingAudio then
      min (s.startOffset + (now - s.startTime)) buf.duration
    else s.startOffset
  | none => s.startOffset

/-- `stopAudio` at audio-clock time `now`: if a source node exists, record
the stop position (see `stopPosition`), then stop/disconnect and null the
node; in every case clear the playing flag. -/
def stopAudio (s : PlayerState) (now : ℚ) : PlayerState :=
  if s.sourceNode.isSome then
    { s with startOffset := stopPosition s now, sourceNode := none,
             isPlayingAudio := false }
  else { s with isPlayingAudio := false }

/-- `playFromStart` at audio-clock time `now` (success path of the `try`):
early return when already playing, no buffer, or no context; otherwise
`stopAudio`, reset the offset to 0, and start a fresh node at offset 0
with the configured rate and loop flag. -/
def playFromStart (s : PlayerState) (now : ℚ) : PlayerState :=
  if s.isPlayingAudio then s
  else
    match s.audioBuffer, s.hasCtx with
    | some _, true =>
      let s1 := stopAudio s now
      { s1 with startOffset := 0,
                startTime := now,
                sourceNode := some { rate := s1.playbackRate, loop := s1.isRepeat,
                                     offset := 0 },
                isPlayingAudio := true }
    | _, _ => s

/-- `resumeAudio` at audio-clock time `now` (success path): early return as
in `playFromStart`; otherwise start a fresh node at
`min (startOffsetRef.current || 0, duration)`. JavaScript `x || 0` on a
real number only maps 0 back to 0, so it is modelled by that test. -/
def resumeAudio (s : PlayerState) (now : ℚ) : PlayerState :=
  if s.isPlayingAudio then s
  else
    match s.audioBuffer, s.hasCtx with
    | some buf, true =>
      let off0 := if s.startOffset = 0 then (0 : ℚ) else s.startOffset
      { s with startTime := now,
               sourceNode := some { rate := s.playbackRate, loop := s.isRepeat,
                                    offset := min off0 buf.duration },
               isPlayingAudio := true }
    | _, _ => s

/-- The `source.onended` handler: clear the playing flag and null the
node ref. It touches nothing else — in particular not `startOffsetRef`. -/
def onEnded (s : PlayerState) : PlayerState :=
  { s with isPlayingAudio := false, sourceNode := none }

/-- `setSpeed`: store the rate and, if a node is present, write it to the
node's `playbackRate.value` as well. The argument is stored as given. -/
def setSpeed (s : PlayerState) (rate : ℚ) : PlayerState :=
  let s1 := { s with playbackRate := rate }
  match s1.sourceNode with
  | some node => { s1 with sourceNode := some { node with rate := rate } }
  | none => s1

/-- The synchronous prefix of the `useEffect [text]` body: on empty text,
clear the prepared flag and the buffer; otherwise set loading, clear
prepared/playing/error, zero the stored offset, and track the new text
(the async synthesis call is then in flight). -/
def loadStart (s : PlayerState) (text : String) : PlayerState :=
  if text = "" then { s with isAudioPrepared := false, audioBuffer := none }
  else { s with isAudioLoading := true, isAudioPrepared := false,
                isPlayingAudio := false, isAudioError := false,
                startOffset := 0, currentText := text }

set_option linter.unusedVariables false in
/-- The async continuation of a synthesis call that succeeds with `bytes`,
originally issued for `forText`: ensure the context exists, decode, and
commit the buffer. The source never consults `forText` again — the
resolved response is committed regardless of which text is currently
tracked. -/
def loadResolve (s : PlayerState) (forText : String) (bytes : List Nat) : PlayerState :=
  { s with hasCtx := true,
           audioBuffer := some (pcmToAudioBuffer bytes),
           isAudioPrepared := true,
           isAudioLoading := false }

/-- The async continuation of a synthesis call that fails: set the error
flag, clear prepared, clear loading. The buffer ref is left untouched. -/
def loadReject (s : PlayerState) : PlayerState :=
  { s with isAudioError := true, isAudioPrepared := false, isAudioLoading := false }

/-- The `useEffect [isAudioPrepared, audioBuffer]` autoplay effect: when
prepared with a buffer, not playing, and the context exists, invoke
`playFromStart`. -/
def autoPlayEffect (s : PlayerState) (now : ℚ) : PlayerState :=
  match s.isAudioPrepared, s.audioBuffer, s.isPlayingAudio, s.hasCtx with
  | true, some _, false, true => playFromStart s now
  | _, _, _, _ => s

/-- A transport event on a loaded clip, tagged with the audio-clock time
at which it is handled. -/
inductive TransportEv where
  | playFS (now : ℚ)
  | resume (now : ℚ)
  | stop (now : ℚ)
  | ended (now : ℚ)
  deriving DecidableEq

def TransportEv.time : TransportEv → ℚ
  | .playFS t => t
  | .resume t => t
  | .stop t => t
  | .ended t => t

def step (s : PlayerState) : TransportEv → PlayerState
  | .playFS t => playFromStart s t
  | .resume t => resumeAudio s t
  | .stop t => stopAudio s t
  | .ended _ => onEnded s

def runTrace (s : PlayerState) : List TransportEv → PlayerState
  | [] => s
  | e :: es => runTrace (step s e) es

/-- The audio clock is monotone: each event in the trace is handled no
earlier than `t`, and the event times are nondecreasing. -/
def timesChained : ℚ → List TransportEv → Prop
  | _, [] => True
  | t, e :: es => t ≤ e.time ∧ timesChained e.time es

/-- Position bookkeeping invariant: the stored offset is nonnegative and,
when a buffer is held, at most its duration. -/
def PosInv (s : PlayerState) : Prop :=
  0 ≤ s.startOffset ∧ ∀ b, s.audioBuffer = some b → s.startOffset ≤ b.duration


lemma stopAudio_isPlayingAudio (s : PlayerState) (now : ℚ) :
    (stopAudio s now).isPlayingAudio = false := by
  unfold stopAudio
  cases hsn : s.sourceNode <;> simp [hsn]

lemma stopAudio_sourceNode (s : PlayerState) (now : ℚ) :
    (stopAudio s now).sourceNode = none := by
  unfold stopAudio
  cases hsn : s.sourceNode <;> simp [hsn]

lemma stopAudio_preserves (s : PlayerState) (now : ℚ) :
    (stopAudio s now).audioBuffer = s.audioBuffer ∧
    (stopAudio s now).playbackRate = s.playbackRate ∧
    (stopAudio s now).isRepeat = s.isRepeat ∧
    (stopAudio s now).hasCtx = s.hasCtx ∧
    (stopAudio s now).startTime = s.startTime ∧
    (stopAudio s now).currentText = s.currentText := by
  unfold stopAudio
  cases hsn : s.sourceNode <;> simp [hsn]

lemma stopAudio_not_playing (s : PlayerState) (now : ℚ) (hp : s.isPlayingAudio = false) :
    stopAudio s now = { s with sourceNode := none, isPlayingAudio := false } := by
  obtain ⟨p, l, pr, ab, rate, rep, err, ctx, sn, st, off, txt⟩ := s
  dsimp only at hp
  subst hp
  cases sn <;> cases ab <;> simp [stopAudio, stopPosition]

lemma stopAudio_playing_startOffset (s : PlayerState) (now : ℚ) (b : AudioBuffer)
    (hp : s.isPlayingAudio = true) (hsn : s.sourceNode.isSome = true)
    (hb : s.audioBuffer = some b) (hc : s.hasCtx = true) :
    (stopAudio s now).startOffset = min (s.startOffset + (now - s.startTime)) b.duration := by
  obtain ⟨p, l, pr, ab, rate, rep, err, ctx, sn, st, off, txt⟩ := s
  dsimp only at hp hsn hb hc
  subst hp
  subst hb
  subst hc
  cases sn <;> simp_all [stopAudio, stopPosition]

/-- When not currently playing and a buffer and context exist,
`playFromStart` resets the offset, records the start time, and installs a
fresh node with the configured rate and loop flag at offset 0. -/
lemma playFromStart_ready (s : PlayerState) (now : ℚ) (b : AudioBuffer)
    (hp : s.isPlayingAudio = false) (hb : s.audioBuffer = some b) (hc : s.hasCtx = true) :
    playFromStart s now =
      { s with startOffset := 0, startTime := now,
               sourceNode := some { rate := s.playbackRate, loop := s.isRepeat, offset := 0 },
               isPlayingAudio := true } := by
  obtain ⟨p, l, pr, ab, rate, rep, err, ctx, sn, st, off, txt⟩ := s
  dsimp only at hp hb hc
  subst hp
  subst hb
  subst hc
  cases sn <;> simp [playFromStart, stopAudio, stopPosition]

lemma playFromStart_noop_cases (s : PlayerState) (now : ℚ)
    (h : s.isPlayingAudio = true ∨ s.audioBuffer = none ∨ s.hasCtx = false) :
    playFromStart s now = s := by
  obtain ⟨p, l, pr, ab, rate, rep, err, ctx, sn, st, off, txt⟩ := s
  dsimp only at h
  rcases h with hp | hb | hc
  · subst hp
    simp [playFromStart]
  · subst hb
    cases p <;> cases ctx <;> simp [playFromStart]
  · subst hc
    cases p <;> cases ab <;> simp [playFromStart]

/-- Falsy-or: on rationals, `x || 0` from the source is just `x`. -/
lemma falsy_or_self (x : ℚ) : (if x = 0 then (0 : ℚ) else x) = x := by
  split <;> simp_all

lemma resumeAudio_ready (s : PlayerState) (now : ℚ) (b : AudioBuffer)
    (hp : s.isPlayingAudio = false) (hb : s.audioBuffer = some b) (hc : s.hasCtx = true) :
    (resumeAudio s now).isPlayingAudio = true ∧
    (resumeAudio s now).startOffset = s.startOffset ∧
    (resumeAudio s now).startTime = now ∧
    (resumeAudio s now).sourceNode =
      some { rate := s.playbackRate, loop := s.isRepeat,
             offset := min s.startOffset b.duration } := by
  obtain ⟨p, l, pr, ab, rate, rep, err, ctx, sn, st, off, txt⟩ := s
  dsimp only at hp hb hc
  subst hp
  subst hb
  subst hc
  simp only [resumeAudio, falsy_or_self]
  simp

lemma resumeAudio_noop_cases (s : PlayerState) (now : ℚ)
    (h : s.isPlayingAudio = true ∨ s.audioBuffer = none ∨ s.hasCtx = false) :
    resumeAudio s now = s := by
  obtain ⟨p, l, pr, ab, rate, rep, err, ctx, sn, st, off, txt⟩ := s
  dsimp only at h
  rcases h with hp | hb | hc
  · subst hp
    simp [resumeAudio]
  · subst hb
    cases p <;> cases ctx <;> simp [resumeAudio]
  · subst hc
    cases p <;> cases ab <;> simp [resumeAudio]

lemma resumeAudio_preserves_startOffset (s : PlayerState) (now : ℚ) :
    (resumeAudio s now).startOffset = s.startOffset ∧
    (resumeAudio s now).audioBuffer = s.audioBuffer := by
  obtain ⟨p, l, pr, ab, rate, rep, err, ctx, sn, st, off, txt⟩ := s
  cases p <;> cases ab <;> cases ctx <;> simp [resumeAudio]

/-- A two-frame example buffer decoded from four bytes
(samples `0x1234/32768` and `-1/32768`, duration `2/24000`). -/
def bufEx : AudioBuffer := pcmToAudioBuffer [52, 18, 255, 255]

/-- An example Ready state: context created, buffer decoded and prepared. -/
def readyEx : PlayerState :=
  { initState with hasCtx := true, audioBuffer := some bufEx, isAudioPrepared := true }

/-- An example Playing state: `playFromStart` from `readyEx` at time 10. -/
def playingEx : PlayerState := playFromStart readyEx 10

/-- Claim C2: stopping while a session is playing stores
`min (priorPosition + elapsed, duration)`, releases the node, and leaves
the Playing state; stopping at the same clock instant as a preceding
`playFromStart` stores position 0. -/
theorem stop_updates_position :
    (∀ (s : PlayerState) (now : ℚ) (b : AudioBuffer),
        s.isPlayingAudio = true → s.sourceNode.isSome = true → s.audioBuffer = some b →
        s.hasCtx = true →
        (stopAudio s now).startOffset
            = min (s.startOffset + (now - s.startTime)) b.duration ∧
        (stopAudio s now).isPlayingAudio = false ∧
        (stopAudio s now).sourceNode = none) ∧
    (∀ (s : PlayerState) (t : ℚ) (b : AudioBuffer),
        s.isPlayingAudio = false → s.audioBuffer = some b → s.hasCtx = true →
        (stopAudio (playFromStart s t) t).startOffset = 0) := by
  constructor
  · intro s now b hp hsn hb hc
    exact ⟨stopAudio_playing_startOffset s now b hp hsn hb hc,
      stopAudio_isPlayingAudio s now, stopAudio_sourceNode s now⟩
  · intro s t b hp hb hc
    rw [playFromStart_ready s t b hp hb hc]
    rw [stopAudio_playing_startOffset
      { s with startOffset := 0, startTime := t,
               sourceNode := some { rate := s.playbackRate, loop := s.isRepeat, offset := 0 },
               isPlayingAudio := true }
      t b rfl rfl (by simpa using hb) (by simpa using hc)]
    show min (0 + (t - t)) b.duration = 0
    rw [sub_self, add_zero]
    exact min_eq_left (duration_nonneg b)

/-- Claim C2 witness: stopping the example playing session at time 12. -/
theorem stop_updates_position_witness :
    (stopAudio playingEx 12).startOffset
        = min (playingEx.startOffset + (12 - playingEx.startTime)) bufEx.duration ∧
    (stopAudio playingEx 12).isPlayingAudio = false ∧
    (stopAudio playingEx 12).sourceNode = none :=
  stop_updates_position.1 playingEx 12 bufEx rfl rfl rfl rfl

/-- Claim C3 counterexample: with a buffer present and a session playing,
`playFromStart` returns the state unchanged — it is a no-op when already
playing, so it neither stops the existing session nor restarts at 0. -/
theorem playFromStart_noop_when_playing_cex :
    playingEx.isPlayingAudio = true ∧ playingEx.audioBuffer.isSome = true ∧
    playFromStart playingEx 12 = playingEx := by
  refine ⟨rfl, rfl, ?_⟩
  exact playFromStart_noop_cases playingEx 12 (Or.inl rfl)

/-- Claim C3 (amended): `playFromStart` is a no-op while a session is
playing; from a non-playing state with a buffer and context it resets the
position to 0, records the start time, and starts a session with the
configured rate and loop flag at buffer offset 0. -/
theorem playFromStart_behavior :
    (∀ (s : PlayerState) (now : ℚ), s.isPlayingAudio = true → playFromStart s now = s) ∧
    (∀ (s : PlayerState) (now : ℚ) (b : AudioBuffer),
        s.isPlayingAudio = false → s.audioBuffer = some b → s.hasCtx = true →
        playFromStart s now =
          { s with startOffset := 0, startTime := now,
                   sourceNode := some { rate := s.playbackRate, loop := s.isRepeat, offset := 0 },
                   isPlayingAudio := true }) :=
  ⟨fun s now hp => playFromStart_noop_cases s now (Or.inl hp),
   fun s now b hp hb hc => playFromStart_ready s now b hp hb hc⟩

/-- Claim C3 witness: the no-op branch on the playing example and the
start branch on the ready example. -/
theorem playFromStart_behavior_witness :
    playFromStart playingEx 12 = playingEx ∧
    playFromStart readyEx 10 =
      { readyEx with startOffset := 0, startTime := 10,
                     sourceNode := some { rate := 1, loop := true, offset := 0 },
                     isPlayingAudio := true } :=
  ⟨playFromStart_behavior.1 playingEx 12 rfl,
   playFromStart_behavior.2 readyEx 10 bufEx rfl rfl rfl⟩

lemma setSpeed_fields (s : PlayerState) (r : ℚ) :
    (setSpeed s r).playbackRate = r ∧
    (setSpeed s r).sourceNode = s.sourceNode.map (fun n => { n with rate := r }) := by
  obtain ⟨p, l, pr, ab, rate, rep, err, ctx, sn, st, off, txt⟩ := s
  cases sn <;> simp [setSpeed]

/-- Claim C4 counterexample: `setSpeed (1/10)` stores 1/10, not 1/2, and
`setSpeed 5` stores 5, not 3/2 — no clamping to [0.5, 1.5] occurs, either
in the stored rate or in the rate applied to the active node. -/
theorem setSpeed_no_clamp_cex :
    (setSpeed playingEx (1 / 10)).playbackRate = 1 / 10 ∧
    ¬ (setSpeed playingEx (1 / 10)).playbackRate = 1 / 2 ∧
    (setSpeed playingEx 5).playbackRate = 5 ∧
    ¬ (setSpeed playingEx 5).playbackRate = 3 / 2 ∧
    (setSpeed playingEx (1 / 10)).sourceNode
        = some { rate := 1 / 10, loop := true, offset := 0 } := by
  have h1 := setSpeed_fields playingEx (1 / 10)
  have h2 := setSpeed_fields playingEx 5
  have hsn : playingEx.sourceNode = some { rate := 1, loop := true, offset := 0 } := rfl
  refine ⟨h1.1, ?_, h2.1, ?_, ?_⟩
  · rw [h1.1]
    norm_num
  · rw [h2.1]
    norm_num
  · rw [h1.2, hsn]
    rfl

/-- The speed-decrease button in `SpeechControls`:
`onSpeedChange(Math.max(0.5, playbackRate - 0.1))`. -/
def decSpeed (r : ℚ) : ℚ := max (1 / 2) (r - 1 / 10)

/-- The speed-increase button in `SpeechControls`:
`onSpeedChange(Math.min(1.5, playbackRate + 0.1))`. -/
def incSpeed (r : ℚ) : ℚ := min (3 / 2) (r + 1 / 10)

/-- Claim C4 (amended): `setSpeed r` stores the rate exactly as given,
without clamping, and applies it immediately to the active source node if
one exists; the interval [0.5, 1.5] is maintained only by the UI speed
buttons, whose clamped ±0.1 steps keep an in-range rate in range. -/
theorem setSpeed_stores_rate_unclamped :
    (∀ (s : PlayerState) (r : ℚ),
        (setSpeed s r).playbackRate = r ∧
        (setSpeed s r).sourceNode = s.sourceNode.map (fun n => { n with rate := r })) ∧
    (∀ r : ℚ, 1 / 2 ≤ r → r ≤ 3 / 2 →
        1 / 2 ≤ decSpeed r ∧ decSpeed r ≤ 3 / 2 ∧
        1 / 2 ≤ incSpeed r ∧ incSpeed r ≤ 3 / 2) := by
  refine ⟨fun s r => setSpeed_fields s r, ?_⟩
  intro r h1 h2
  unfold decSpeed incSpeed
  exact ⟨le_max_left _ _, max_le (by norm_num) (by linarith),
    le_min (by norm_num) (by linarith), min_le_left _ _⟩

/-- Claim C4 witness: storing rate 1 on the playing example, and the UI
step bounds at rate 1. -/
theorem setSpeed_stores_rate_unclamped_witness :
    (setSpeed playingEx 1).playbackRate = 1 ∧
    1 / 2 ≤ decSpeed 1 ∧ decSpeed 1 ≤ 3 / 2 :=
  ⟨(setSpeed_stores_rate_unclamped.1 playingEx 1).1,
   (setSpeed_stores_rate_unclamped.2 1 (by norm_num) (by norm_num)).1,
   (setSpeed_stores_rate_unclamped.2 1 (by norm_num) (by norm_num)).2.1⟩

/-- Claim C5 counterexample: the session-ended signal leaves the stored
position unchanged (0 here) rather than setting it to the buffer duration
(1/12000), and a subsequent resume starts its session at offset 0, not at
the clip end. -/
theorem onended_position_cex :
    (onEnded playingEx).startOffset = 0 ∧
    (onEnded playingEx).audioBuffer = some bufEx ∧
    bufEx.duration = 1 / 12000 ∧
    ¬ (onEnded playingEx).startOffset = bufEx.duration ∧
    (resumeAudio (onEnded playingEx) 20).sourceNode
        = some { rate := 1, loop := true, offset := 0 } := by
  have hoff : (onEnded playingEx).startOffset = 0 := rfl
  have hbuf : (onEnded playingEx).audioBuffer = some bufEx := rfl
  have hdur : bufEx.duration = 1 / 12000 := by
    show ((bufEx.length : ℚ) / (bufEx.sampleRate : ℚ)) = 1 / 12000
    rw [show bufEx.length = 2 from rfl, show bufEx.sampleRate = 24000 from rfl]
    norm_num
  refine ⟨hoff, hbuf, hdur, ?_, ?_⟩
  · rw [hoff, hdur]
    norm_num
  · rw [(resumeAudio_ready (onEnded playingEx) 20 bufEx rfl rfl rfl).2.2.2,
      show (onEnded playingEx).playbackRate = 1 from rfl,
      show (onEnded playingEx).isRepeat = true from rfl, hoff,
      min_eq_left (duration_nonneg bufEx)]

/-- Claim C5 (amended): on the session-ended signal the controller clears
the playing flag and releases the node but leaves the stored playback
position and the buffer untouched; it does not set the position to the
clip duration. -/
theorem onended_releases_session (s : PlayerState) :
    (onEnded s).isPlayingAudio = false ∧ (onEnded s).sourceNode = none ∧
    (onEnded s).startOffset = s.startOffset ∧ (onEnded s).audioBuffer = s.audioBuffer := by
  simp [onEnded]

/-- A state whose load of text "B" failed after a previous successful load
of text "A": the error flag is set but A's decoded buffer is still held. -/
def errorEx : PlayerState :=
  loadReject (loadStart (loadResolve (loadStart initState "A") "A" [52, 18, 255, 255]) "B")

/-- Claim C6 counterexample: after the failed load the controller is in the
error state yet still holds the stale buffer of the previously loaded
text, and `playFromStart` in that state is not a no-op — it starts playing
the stale buffer. -/
theorem error_retains_stale_buffer_cex :
    errorEx.isAudioError = true ∧
    errorEx.audioBuffer = some (pcmToAudioBuffer [52, 18, 255, 255]) ∧
    ¬ errorEx.audioBuffer = none ∧
    (playFromStart errorEx 0).isPlayingAudio = true ∧
    ¬ playFromStart errorEx 0 = errorEx := by
  have hbuf : errorEx.audioBuffer = some (pcmToAudioBuffer [52, 18, 255, 255]) := rfl
  have hplay := playFromStart_ready errorEx 0 (pcmToAudioBuffer [52, 18, 255, 255]) rfl rfl rfl
  refine ⟨rfl, hbuf, ?_, ?_, ?_⟩
  · rw [hbuf]
    simp
  · rw [hplay]
  · rw [hplay]
    intro hcontra
    have hflag := congrArg PlayerState.isPlayingAudio hcontra
    rw [show errorEx.isPlayingAudio = false from rfl] at hflag
    simp at hflag

/-- Claim C6 (amended): a failed synthesis/decode sets the error flag and
clears the prepared flag but leaves the buffer ref untouched, so a buffer
from a previously loaded text remains playable; `playFromStart` is a
guaranteed no-op (hence cannot throw) when no buffer is held, as after a
first load's failure. -/
theorem load_failure_error_state :
    (∀ s : PlayerState, (loadReject s).isAudioError = true ∧
        (loadReject s).isAudioPrepared = false ∧
        (loadReject s).audioBuffer = s.audioBuffer) ∧
    (∀ (s : PlayerState) (now : ℚ), s.audioBuffer = none → playFromStart s now = s) := by
  constructor
  · intro s
    simp [loadReject]
  · intro s now hb
    exact playFromStart_noop_cases s now (Or.inr (Or.inl hb))

/-- Claim C6 witness: a failing first load on a fresh controller, where
`playFromStart` really is a no-op. -/
theorem load_failure_error_state_witness :
    (loadReject (loadStart initState "A")).isAudioError = true ∧
    playFromStart (loadReject (loadStart initState "A")) 0
        = loadReject (loadStart initState "A") :=
  ⟨(load_failure_error_state.1 (loadStart initState "A")).1,
   load_failure_error_state.2 (loadReject (loadStart initState "A")) 0 rfl⟩

/-- A stale resolution: text "A"'s load starts, then text "B"'s load
starts, then A's synthesis response resolves. -/
def staleEx : PlayerState :=
  loadResolve (loadStart (loadStart initState "A") "B") "A" [52, 18, 255, 255]

/-- Claim C7 counterexample: the stale response for text "A", resolving
after text "B"'s load began (the tracked text is "B" ≠ "A"), still commits
its buffer and marks the player prepared — no originating-text comparison
guards the commit. -/
theorem stale_response_committed_cex :
    staleEx.currentText = "B" ∧
    ¬ ("A" = "B") ∧
    staleEx.audioBuffer = some (pcmToAudioBuffer [52, 18, 255, 255]) ∧
    staleEx.isAudioPrepared = true := by
  exact ⟨rfl, by decide, rfl, rfl⟩

/-- Claim C7 (amended): a resolved synthesis response is committed
unconditionally — the resulting state does not depend on the originating
text at all, so the last response to resolve wins regardless of the
currently tracked source text. -/
theorem resolve_commits_unconditionally (s : PlayerState) (t1 t2 : String) (bytes : List Nat) :
    loadResolve s t1 bytes = loadResolve s t2 bytes ∧
    (loadResolve s t1 bytes).audioBuffer = some (pcmToAudioBuffer bytes) ∧
    (loadResolve s t1 bytes).isAudioPrepared = true ∧
    (loadResolve s t1 bytes).currentText = s.currentText := by
  refine ⟨rfl, ?_, ?_, ?_⟩ <;> simp [loadResolve]

lemma playFromStart_PosInv (s : PlayerState) (now : ℚ) (hInv : PosInv s) :
    PosInv (playFromStart s now) := by
  obtain ⟨h0, hdur⟩ := hInv
  by_cases hp : s.isPlayingAudio = true
  · rw [playFromStart_noop_cases s now (Or.inl hp)]
    exact ⟨h0, hdur⟩
  · rcases hab : s.audioBuffer with _ | b
    · rw [playFromStart_noop_cases s now (Or.inr (Or.inl hab))]
      exact ⟨h0, hdur⟩
    · by_cases hc : s.hasCtx = true
      · rw [playFromStart_ready s now b (by simpa using hp) hab hc]
        refine ⟨le_refl 0, ?_⟩
        intro b2 hb2
        exact duration_nonneg b2
      · rw [playFromStart_noop_cases s now (Or.inr (Or.inr (by simpa using hc)))]
        exact ⟨h0, hdur⟩

lemma playFromStart_startTime (s : PlayerState) (now : ℚ) :
    (playFromStart s now).startTime = s.startTime ∨
    (playFromStart s now).startTime = now := by
  by_cases hp : s.isPlayingAudio = true
  · rw [playFromStart_noop_cases s now (Or.inl hp)]
    exact Or.inl rfl
  · rcases hab : s.audioBuffer with _ | b
    · rw [playFromStart_noop_cases s now (Or.inr (Or.inl hab))]
      exact Or.inl rfl
    · by_cases hc : s.hasCtx = true
      · rw [playFromStart_ready s now b (by simpa using hp) hab hc]
        exact Or.inr rfl
      · rw [playFromStart_noop_cases s now (Or.inr (Or.inr (by simpa using hc)))]
        exact Or.inl rfl

lemma resumeAudio_PosInv (s : PlayerState) (now : ℚ) (hInv : PosInv s) :
    PosInv (resumeAudio s now) := by
  obtain ⟨hoff, hbuf⟩ := resumeAudio_preserves_startOffset s now
  obtain ⟨h0, hdur⟩ := hInv
  refine ⟨?_, ?_⟩
  · rw [hoff]
    exact h0
  · intro b hb
    rw [hoff]
    refine hdur b ?_
    rw [← hbuf]
    exact hb

lemma resumeAudio_startTime (s : PlayerState) (now : ℚ) :
    (resumeAudio s now).startTime = s.startTime ∨
    (resumeAudio s now).startTime = now := by
  by_cases hp : s.isPlayingAudio = true
  · rw [resumeAudio_noop_cases s now (Or.inl hp)]
    exact Or.inl rfl
  · rcases hab : s.audioBuffer with _ | b
    · rw [resumeAudio_noop_cases s now (Or.inr (Or.inl hab))]
      exact Or.inl rfl
    · by_cases hc : s.hasCtx = true
      · exact Or.inr (resumeAudio_ready s now b (by simpa using hp) hab hc).2.2.1
      · rw [resumeAudio_noop_cases s now (Or.inr (Or.inr (by simpa using hc)))]
        exact Or.inl rfl

lemma stopAudio_startOffset_le (s : PlayerState) (now : ℚ) (h0 : 0 ≤ s.startOffset)
    (ht : s.startTime ≤ now)
    (hdur : ∀ b, s.audioBuffer = some b → s.startOffset ≤ b.duration) :
    0 ≤ (stopAudio s now).startOffset ∧
    (∀ b, s.audioBuffer = some b → (stopAudio s now).startOffset ≤ b.duration) := by
  obtain ⟨p, l, pr, ab, rate, rep, err, ctx, sn, st, off, txt⟩ := s
  dsimp only at h0 ht hdur
  cases sn with
  | none => exact ⟨h0, hdur⟩
  | some n =>
    cases ab with
    | none => exact ⟨h0, hdur⟩
    | some buf =>
      have hspec := hdur buf rfl
      by_cases hcp : (ctx && p) = true
      · refine ⟨?_, ?_⟩
        · show 0 ≤ if (ctx && p) = true then min (off + (now - st)) buf.duration else off
          rw [if_pos hcp]
          refine le_min (by linarith) (duration_nonneg buf)
        · intro b hb
          have hb2 : some buf = some b := hb
          cases hb2
          show (if (ctx && p) = true then min (off + (now - st)) buf.duration else off)
              ≤ buf.duration
          rw [if_pos hcp]
          exact min_le_right _ _
      · refine ⟨?_, ?_⟩
        · show 0 ≤ if (ctx && p) = true then min (off + (now - st)) buf.duration else off
          rw [if_neg hcp]
          exact h0
        · intro b hb
          have hb2 : some buf = some b := hb
          cases hb2
          show (if (ctx && p) = true then min (off + (now - st)) buf.duration else off)
              ≤ buf.duration
          rw [if_neg hcp]
          exact hspec

lemma stopAudio_PosInv (s : PlayerState) (now : ℚ) (hInv : PosInv s)
    (ht : s.startTime ≤ now) : PosInv (stopAudio s now) := by
  obtain ⟨h0, hdur⟩ := hInv
  obtain ⟨hA, hB⟩ := stopAudio_startOffset_le s now h0 ht hdur
  refine ⟨hA, ?_⟩
  intro b hb
  refine hB b ?_
  rw [← (stopAudio_preserves s now).1]
  exact hb

lemma onEnded_PosInv (s : PlayerState) (hInv : PosInv s) : PosInv (onEnded s) := by
  obtain ⟨h0, hdur⟩ := hInv
  exact ⟨h0, fun b hb => hdur b hb⟩

lemma step_preserves_PosInv (s : PlayerState) (e : TransportEv)
    (hInv : PosInv s) (ht : s.startTime ≤ e.time) :
    PosInv (step s e) ∧ (step s e).startTime ≤ e.time := by
  cases e with
  | playFS t =>
      refine ⟨playFromStart_PosInv s t hInv, ?_⟩
      show (playFromStart s t).startTime ≤ t
      rcases playFromStart_startTime s t with h | h
      · rw [h]
        exact ht
      · rw [h]
  | resume t =>
      refine ⟨resumeAudio_PosInv s t hInv, ?_⟩
      show (resumeAudio s t).startTime ≤ t
      rcases resumeAudio_startTime s t with h | h
      · rw [h]
        exact ht
      · rw [h]
  | stop t =>
      refine ⟨stopAudio_PosInv s t hInv ht, ?_⟩
      show (stopAudio s t).startTime ≤ t
      rw [(stopAudio_preserves s t).2.2.2.2.1]
      exact ht
  | ended t =>
      exact ⟨onEnded_PosInv s hInv, ht⟩

lemma runTrace_PosInv (es : List TransportEv) (s : PlayerState) (t : ℚ)
    (hInv : PosInv s) (ht : s.startTime ≤ t) (hchain : timesChained t es) :
    PosInv (runTrace s es) := by
  induction es generalizing s t with
  | nil => exact hInv
  | cons e es ih =>
      obtain ⟨hte, hrest⟩ := hchain
      obtain ⟨hI, hT⟩ := step_preserves_PosInv s e hInv (le_trans ht hte)
      exact ih (step s e) e.time hI hT hrest

/-- Claim C9: over every sequence of transport operations (play from
start, resume, stop, natural completion) handled at nondecreasing
audio-clock times, the stored playback position stays within
[0, duration]; and resume starts its session at the stored position
clamped to [0, duration]. -/
theorem position_invariant (s : PlayerState) (t : ℚ) (es : List TransportEv)
    (hInv : PosInv s) (ht : s.startTime ≤ t) (hchain : timesChained t es) :
    PosInv (runTrace s es) ∧
    (∀ (now : ℚ) (b : AudioBuffer),
        s.isPlayingAudio = false → s.audioBuffer = some b → s.hasCtx = true →
        (resumeAudio s now).sourceNode =
          some { rate := s.playbackRate, loop := s.isRepeat,
                 offset := min s.startOffset b.duration } ∧
        0 ≤ min s.startOffset b.duration ∧
        min s.startOffset b.duration ≤ b.duration) := by
  refine ⟨runTrace_PosInv es s t hInv ht hchain, ?_⟩
  intro now b hp hb hc
  exact ⟨(resumeAudio_ready s now b hp hb hc).2.2.2,
    le_min hInv.1 (duration_nonneg b), min_le_right _ _⟩

/-- Claim C9 witness: a concrete play/stop/resume/ended trace on the ready
example preserves the invariant, and resume starts at min(0, duration). -/
theorem position_invariant_witness :
    PosInv (runTrace readyEx
      [TransportEv.playFS 10, TransportEv.stop 11, TransportEv.resume 12,
        TransportEv.ended 13]) ∧
    (resumeAudio readyEx 20).sourceNode =
      some { rate := 1, loop := true, offset := min 0 bufEx.duration } := by
  have h := position_invariant readyEx 10
    [TransportEv.playFS 10, TransportEv.stop 11, TransportEv.resume 12,
      TransportEv.ended 13]
    ⟨le_refl 0, fun b hb => by
      have hb' : some bufEx = some b := hb
      cases hb'
      exact duration_nonneg _⟩
    (by norm_num [readyEx, initState])
    (by norm_num [timesChained, TransportEv.time])
  refine ⟨h.1, ?_⟩
  have h2 := (h.2 20 bufEx rfl rfl rfl).1
  rw [h2]
  rfl

lemma loadStart_nonempty (s : PlayerState) (text : String) (hne : ¬ text = "") :
    loadStart s text =
      { s with isAudioLoading := true, isAudioPrepared := false,
               isPlayingAudio := false, isAudioError := false,
               startOffset := 0, currentText := text } := by
  unfold loadStart
  rw [if_neg hne]

lemma autoPlayEffect_fires (s : PlayerState) (now : ℚ)
    (hpr : s.isAudioPrepared = true) (hb : s.audioBuffer.isSome = true)
    (hp : s.isPlayingAudio = false) (hc : s.hasCtx = true) :
    autoPlayEffect s now = playFromStart s now := by
  obtain ⟨p, l, pr, ab, rate, rep, err, ctx, sn, st, off, txt⟩ := s
  dsimp only at hpr hb hp hc
  subst hpr
  subst hp
  subst hc
  cases ab
  · simp at hb
  · rfl

/-- Claim C10: after a successful load of a non-empty text the autoplay
effect invokes `playFromStart` with no transport command from the caller:
the resulting state is playing at offset 0 with a session carrying the
configured rate and loop flag; a freshly created controller has
`isRepeat = true`, so that automatic session loops. -/
theorem autoplay_after_load (s : PlayerState) (text : String) (bytes : List Nat) (now : ℚ)
    (hne : ¬ text = "") :
    (autoPlayEffect (loadResolve (loadStart s text) text bytes) now).isPlayingAudio = true ∧
    (autoPlayEffect (loadResolve (loadStart s text) text bytes) now).startOffset = 0 ∧
    (autoPlayEffect (loadResolve (loadStart s text) text bytes) now).sourceNode =
      some { rate := s.playbackRate, loop := s.isRepeat, offset := 0 } ∧
    initState.isRepeat = true ∧
    (autoPlayEffect (loadResolve (loadStart initState text) text bytes) now).sourceNode =
      some { rate := 1, loop := true, offset := 0 } := by
  have hL := loadStart_nonempty s text hne
  have hLi := loadStart_nonempty initState text hne
  have hfire := autoPlayEffect_fires (loadResolve (loadStart s text) text bytes) now
    rfl rfl (by rw [hL]; rfl) rfl
  have hplay := playFromStart_ready (loadResolve (loadStart s text) text bytes) now
    (pcmToAudioBuffer bytes) (by rw [hL]; rfl) rfl rfl
  have hfire0 := autoPlayEffect_fires (loadResolve (loadStart initState text) text bytes) now
    rfl rfl (by rw [hLi]; rfl) rfl
  have hplay0 := playFromStart_ready (loadResolve (loadStart initState text) text bytes) now
    (pcmToAudioBuffer bytes) (by rw [hLi]; rfl) rfl rfl
  rw [hfire, hplay, hfire0, hplay0]
  refine ⟨rfl, rfl, ?_, rfl, ?_⟩
  · rw [hL]
    rfl
  · rw [hLi]
    rfl

/-- Claim C10 witness: loading "hi" on a fresh controller and letting the
autoplay effect run yields a playing looping session at offset 0. -/
theorem autoplay_after_load_witness :
    (autoPlayEffect (loadResolve (loadStart initState "hi") "hi" [0, 1]) 0).isPlayingAudio
        = true ∧
    (autoPlayEffect (loadResolve (loadStart initState "hi") "hi" [0, 1]) 0).sourceNode =
      some { rate := 1, loop := true, offset := 0 } := by
  have h := autoplay_after_load initState "hi" [0, 1] 0 (by decide)
  exact ⟨h.1, h.2.2.2.2⟩
